import Mathlib

/-!
Verification of the marshmallow schema/field validation core against its
natural-language specification.  The Python source is shallowly embedded:
Python values relevant to each operation become small inductive types,
fallible constructors and procedures become `Except`-returning functions,
and Python dicts (which preserve insertion order) become association lists
whose update-in-place and append-at-end behaviour mirrors CPython's.
-/

namespace Marshmallow

/-!
## Error trees (`error_store.py`)

A marshmallow error tree is a Python value that is either a dict mapping
keys to subtrees, a list of messages, or a bare scalar message
(`str`/`int`/`float`; all scalars are embedded as strings, which is the
only scalar shape the claims exercise).  Dict keys are embedded as
strings.
-/

inductive PyErr : Type where
  | scalar : String → PyErr
  | lst : List PyErr → PyErr
  | dict : List (String × PyErr) → PyErr

/-- First-match lookup in an association list, as Python `d[key]` /
`key in d` observe it (Python dicts cannot hold duplicate keys; embedded
lists built by the embedded operations never do either). -/
def lookupKey : List (String × PyErr) → String → Option PyErr
  | [], _ => none
  | (k1, v1) :: rest, k => if k1 = k then some v1 else lookupKey rest k

/-- Python `d[key] = v` on a dict already containing `key`: the value is
replaced, the key keeps its position. -/
def setKey : List (String × PyErr) → String → PyErr → List (String × PyErr)
  | [], _, _ => []
  | (k1, v1) :: rest, k, v =>
    if k1 = k then (k1, v) :: rest else (k1, v1) :: setKey rest k v

mutual

/-- Embeds `merge_errors` from `error_store.py`:
dict/dict deep-merges key by key, list/list concatenates, scalar/scalar
forms a two-element list, and every other combination returns `errors2`
unchanged (the final `else: return errors2` branch). -/
def merge_errors : PyErr → PyErr → PyErr
  | PyErr.dict d1, PyErr.dict d2 => PyErr.dict (mergeInto d1 d2)
  | PyErr.lst l1, PyErr.lst l2 => PyErr.lst (l1 ++ l2)
  | PyErr.scalar s1, PyErr.scalar s2 => PyErr.lst [PyErr.scalar s1, PyErr.scalar s2]
  | _, e2 => e2
termination_by _e1 e2 => sizeOf e2
decreasing_by
  all_goals simp_wf

/-- The dict branch of `merge_errors`: `merged = errors1.copy()` followed by
the `for key, value in errors2.items()` loop, which overwrites the entry of
a shared key with the recursive merge and appends entries for new keys. -/
def mergeInto : List (String × PyErr) → List (String × PyErr) → List (String × PyErr)
  | d1, [] => d1
  | d1, (k, v) :: rest =>
    match lookupKey d1 k with
    | some old => mergeInto (setKey d1 k (merge_errors old v)) rest
    | none => mergeInto (d1 ++ [(k, v)]) rest
termination_by _d1 d2 => sizeOf d2
decreasing_by
  all_goals simp_wf
  all_goals omega

end

/-- The keys of an embedded dict, in insertion order. -/
def keysOf (d : List (String × PyErr)) : List String := d.map Prod.fst

mutual

/-- The class of error trees the spec's merge invariant quantifies over:
every leaf is a list of messages (no bare scalars) and every dict level
has pairwise-distinct keys, as a Python dict necessarily does. -/
def wfb : PyErr → Bool
  | PyErr.scalar _ => false
  | PyErr.lst _ => true
  | PyErr.dict d => decide (keysOf d).Nodup && wfbList d
termination_by e => sizeOf e
decreasing_by
  all_goals simp_wf

def wfbList : List (String × PyErr) → Bool
  | [] => true
  | (_, v) :: rest => wfb v && wfbList rest
termination_by l => sizeOf l
decreasing_by
  all_goals simp_wf
  all_goals omega

end

mutual

/-- Shape compatibility of two error trees: both are message lists, or both
are dicts whose values agree in shape at every shared key.  `merge_errors`
only concatenates or recursively merges under this condition; a shared key
holding a list in one tree and a dict in the other falls through to the
`else: return errors2` branch instead. -/
def compatb : PyErr → PyErr → Bool
  | PyErr.lst _, PyErr.lst _ => true
  | PyErr.dict d1, PyErr.dict d2 => compatDicts d1 d2
  | _, _ => false
termination_by e1 _e2 => sizeOf e1
decreasing_by
  all_goals simp_wf

def compatDicts : List (String × PyErr) → List (String × PyErr) → Bool
  | [], _ => true
  | (k, v1) :: rest, d2 =>
    (match lookupKey d2 k with
     | some v2 => compatb v1 v2
     | none => true) && compatDicts rest d2
termination_by d1 _d2 => sizeOf d1
decreasing_by
  all_goals simp_wf
  all_goals omega

end

/-! ### Association-list lemmas -/

theorem keysOf_nil : keysOf ([] : List (String × PyErr)) = [] := rfl

theorem keysOf_cons (k : String) (v : PyErr) (rest : List (String × PyErr)) :
    keysOf ((k, v) :: rest) = k :: keysOf rest := rfl

theorem keysOf_append (d1 d2 : List (String × PyErr)) :
    keysOf (d1 ++ d2) = keysOf d1 ++ keysOf d2 := by
  simp [keysOf]

theorem lookupKey_eq_none_iff {d : List (String × PyErr)} {k : String} :
    lookupKey d k = none ↔ k ∉ keysOf d := by
  induction d with
  | nil => simp [lookupKey, keysOf]
  | cons hd tl ih =>
    obtain ⟨k1, v1⟩ := hd
    rw [keysOf_cons]
    simp only [lookupKey, List.mem_cons]
    by_cases he : k1 = k
    · simp [he]
    · rw [if_neg he]
      constructor
      · intro h hm
        rcases hm with hm | hm
        · exact he hm.symm
        · exact (ih.mp h) hm
      · intro h
        exact ih.mpr (fun hm => h (Or.inr hm))

theorem lookupKey_eq_none_of_not_mem {d : List (String × PyErr)} {k : String}
    (h : k ∉ keysOf d) : lookupKey d k = none :=
  lookupKey_eq_none_iff.mpr h

theorem mem_of_lookupKey_eq_some {d : List (String × PyErr)} {k : String} {v : PyErr}
    (h : lookupKey d k = some v) : k ∈ keysOf d := by
  by_contra hm
  rw [lookupKey_eq_none_of_not_mem hm] at h
  exact Option.noConfusion h

theorem not_mem_of_lookupKey_eq_none {d : List (String × PyErr)} {k : String}
    (h : lookupKey d k = none) : k ∉ keysOf d :=
  lookupKey_eq_none_iff.mp h

theorem keysOf_setKey (d : List (String × PyErr)) (k : String) (v : PyErr) :
    keysOf (setKey d k v) = keysOf d := by
  induction d with
  | nil => rfl
  | cons hd tl ih =>
    obtain ⟨k1, v1⟩ := hd
    by_cases he : k1 = k
    · simp [setKey, keysOf, he]
    · simp only [setKey, if_neg he, keysOf, List.map_cons, List.cons.injEq, true_and]
      exact ih

theorem lookupKey_setKey_self {d : List (String × PyErr)} {k : String} {old : PyErr}
    (h : lookupKey d k = some old) (v : PyErr) :
    lookupKey (setKey d k v) k = some v := by
  induction d with
  | nil => simp [lookupKey] at h
  | cons hd tl ih =>
    obtain ⟨k1, v1⟩ := hd
    simp only [lookupKey] at h
    by_cases he : k1 = k
    · simp [setKey, he, lookupKey]
    · rw [if_neg he] at h
      simp only [setKey, if_neg he, lookupKey]
      exact ih h

theorem lookupKey_setKey_ne (d : List (String × PyErr)) {k k' : String}
    (h : k' ≠ k) (v : PyErr) : lookupKey (setKey d k v) k' = lookupKey d k' := by
  induction d with
  | nil => rfl
  | cons hd tl ih =>
    obtain ⟨k1, v1⟩ := hd
    by_cases he : k1 = k
    · subst he
      simp only [setKey, if_pos rfl, lookupKey]
      rw [if_neg (fun hc : k1 = k' => h hc.symm), if_neg (fun hc : k1 = k' => h hc.symm)]
    · simp only [setKey, if_neg he, lookupKey]
      by_cases he2 : k1 = k'
      · simp [he2]
      · rw [if_neg he2, if_neg he2]
        exact ih

theorem lookupKey_append (d1 d2 : List (String × PyErr)) (k : String) :
    lookupKey (d1 ++ d2) k =
      match lookupKey d1 k with
      | some v => some v
      | none => lookupKey d2 k := by
  induction d1 with
  | nil => simp [lookupKey]
  | cons hd tl ih =>
    obtain ⟨k1, v1⟩ := hd
    by_cases he : k1 = k
    · simp [lookupKey, he]
    · simp [lookupKey, he, ih]

/-- Pointwise characterisation of the dict merge: the merged dict maps a key
to the recursive merge when both inputs carry it, and to the unique carrier's
value otherwise.  Requires the second dict's keys to be distinct (Python
dicts always are). -/
theorem lookupKey_mergeInto (d2 : List (String × PyErr)) :
    ∀ d1 k, (keysOf d2).Nodup →
    lookupKey (mergeInto d1 d2) k =
      match lookupKey d1 k, lookupKey d2 k with
      | some v1, some v2 => some (merge_errors v1 v2)
      | some v1, none => some v1
      | none, r => r := by
  induction d2 with
  | nil =>
    intro d1 k _
    simp only [mergeInto]
    cases h : lookupKey d1 k <;> simp [lookupKey, h]
  | cons hd rest ih =>
    intro d1 k hnd
    obtain ⟨k0, v0⟩ := hd
    rw [keysOf_cons, List.nodup_cons] at hnd
    obtain ⟨hk0, hndrest⟩ := hnd
    simp only [mergeInto]
    cases h1 : lookupKey d1 k0 with
    | some old =>
      rw [ih _ _ hndrest]
      by_cases hk : k = k0
      · subst hk
        rw [lookupKey_setKey_self h1, lookupKey_eq_none_of_not_mem hk0, h1]
        simp [lookupKey]
      · rw [lookupKey_setKey_ne _ hk]
        have hstep : lookupKey ((k0, v0) :: rest) k = lookupKey rest k := by
          simp only [lookupKey]
          rw [if_neg (fun he => hk he.symm)]
        rw [hstep]
    | none =>
      rw [ih _ _ hndrest]
      by_cases hk : k = k0
      · subst hk
        rw [lookupKey_append, h1, lookupKey_eq_none_of_not_mem hk0]
        simp [lookupKey]
      · rw [lookupKey_append]
        have h2 : lookupKey [(k0, v0)] k = none := by
          simp only [lookupKey]
          rw [if_neg (fun he => hk he.symm)]
        have h3 : lookupKey ((k0, v0) :: rest) k = lookupKey rest k := by
          simp only [lookupKey]
          rw [if_neg (fun he => hk he.symm)]
        rw [h2, h3]
        cases h4 : lookupKey d1 k <;> simp

/-- Key order of the dict merge: the first dict's keys in order, then the
second dict's new keys in order. -/
theorem keysOf_mergeInto (d2 : List (String × PyErr)) :
    ∀ d1, (keysOf d2).Nodup →
    keysOf (mergeInto d1 d2) =
      keysOf d1 ++ (keysOf d2).filter (fun k => !(decide (k ∈ keysOf d1))) := by
  induction d2 with
  | nil =>
    intro d1 _
    simp [mergeInto, keysOf]
  | cons hd rest ih =>
    intro d1 hnd
    obtain ⟨k0, v0⟩ := hd
    rw [keysOf_cons, List.nodup_cons] at hnd
    obtain ⟨hk0, hndrest⟩ := hnd
    simp only [mergeInto]
    cases h1 : lookupKey d1 k0 with
    | some old =>
      rw [ih _ hndrest, keysOf_setKey, keysOf_cons, List.filter_cons]
      have hmem : k0 ∈ keysOf d1 := mem_of_lookupKey_eq_some h1
      have hcond : (!(decide (k0 ∈ keysOf d1))) = false := by simp [hmem]
      rw [hcond]
      simp
    | none =>
      rw [ih _ hndrest]
      have hnmem : k0 ∉ keysOf d1 := not_mem_of_lookupKey_eq_none h1
      have hkeys : keysOf (d1 ++ [(k0, v0)]) = keysOf d1 ++ [k0] := by
        rw [keysOf_append, keysOf_cons, keysOf_nil]
      simp only [hkeys]
      rw [keysOf_cons, List.filter_cons]
      have hcond : (!(decide (k0 ∈ keysOf d1))) = true := by simp [hnmem]
      rw [hcond]
      simp only [if_pos rfl, List.append_assoc, List.singleton_append]
      congr 1
      congr 1
      apply List.filter_congr
      intro x hx
      have hxne : x ≠ k0 := fun he => hk0 (he ▸ hx)
      congr 1
      rw [decide_eq_decide]
      simp only [List.mem_append, List.mem_singleton]
      exact ⟨fun h => h.resolve_right hxne, Or.inl⟩

/-- Two association lists with the same key order, distinct keys and the
same lookups are equal. -/
theorem assocList_ext : ∀ d1 d2 : List (String × PyErr),
    keysOf d1 = keysOf d2 → (keysOf d1).Nodup →
    (∀ k, lookupKey d1 k = lookupKey d2 k) → d1 = d2 := by
  intro d1
  induction d1 with
  | nil =>
    intro d2 hkeys _ _
    cases d2 with
    | nil => rfl
    | cons hd2 t2 => simp [keysOf] at hkeys
  | cons hd t1 ih =>
    intro d2 hkeys hnd hlook
    obtain ⟨k1, v1⟩ := hd
    cases d2 with
    | nil => simp [keysOf] at hkeys
    | cons hd2 t2 =>
      obtain ⟨k2, v2⟩ := hd2
      simp only [keysOf, List.map_cons, List.cons.injEq] at hkeys
      obtain ⟨hk12, hkeystl⟩ := hkeys
      subst hk12
      simp only [keysOf, List.map_cons, List.nodup_cons] at hnd
      obtain ⟨hk1nm, hndtl⟩ := hnd
      have hv : v1 = v2 := by
        have := hlook k1
        simp only [lookupKey, if_pos rfl] at this
        exact Option.some.inj this
      subst hv
      have htl : t1 = t2 := by
        apply ih t2 hkeystl hndtl
        intro k
        by_cases hk : k = k1
        · subst hk
          have hk2nm : k ∉ keysOf t2 := by
            show k ∉ List.map Prod.fst t2
            rw [← hkeystl]
            exact hk1nm
          rw [lookupKey_eq_none_of_not_mem hk1nm, lookupKey_eq_none_of_not_mem hk2nm]
        · have := hlook k
          simp only [lookupKey] at this
          rw [if_neg (fun he => hk he.symm), if_neg (fun he => hk he.symm)] at this
          exact this
      rw [htl]

/-- The dict merge preserves distinctness of keys. -/
theorem nodup_keysOf_mergeInto {d1 d2 : List (String × PyErr)}
    (h1 : (keysOf d1).Nodup) (h2 : (keysOf d2).Nodup) :
    (keysOf (mergeInto d1 d2)).Nodup := by
  rw [keysOf_mergeInto d2 d1 h2]
  refine List.Nodup.append h1 (h2.filter _) ?_
  intro a ha haf
  rw [List.mem_filter] at haf
  have := haf.2
  simp only [Bool.not_eq_true', decide_eq_false_iff_not] at this
  exact this ha

theorem keysOf_mergeInto2 {d2 : List (String × PyErr)} (hnd : (keysOf d2).Nodup)
    (d1 : List (String × PyErr)) :
    keysOf (mergeInto d1 d2) =
      keysOf d1 ++ (keysOf d2).filter (fun k => !(decide (k ∈ keysOf d1))) :=
  keysOf_mergeInto d2 d1 hnd

theorem lookupKey_mergeInto2 {d2 : List (String × PyErr)} (hnd : (keysOf d2).Nodup)
    (d1 : List (String × PyErr)) (k : String) :
    lookupKey (mergeInto d1 d2) k =
      match lookupKey d1 k, lookupKey d2 k with
      | some v1, some v2 => some (merge_errors v1 v2)
      | some v1, none => some v1
      | none, r => r :=
  lookupKey_mergeInto d2 d1 k hnd

theorem wfb_dict_iff {d : List (String × PyErr)} :
    wfb (PyErr.dict d) = true ↔ (keysOf d).Nodup ∧ wfbList d = true := by
  simp [wfb]

theorem wfbList_lookup {d : List (String × PyErr)} {k : String} {v : PyErr}
    (hw : wfbList d = true) (hl : lookupKey d k = some v) : wfb v = true := by
  induction d with
  | nil => simp [lookupKey] at hl
  | cons hd tl ih =>
    obtain ⟨k1, v1⟩ := hd
    simp only [wfbList, Bool.and_eq_true] at hw
    simp only [lookupKey] at hl
    by_cases he : k1 = k
    · rw [if_pos he] at hl
      have hv := Option.some.inj hl
      subst hv
      exact hw.1
    · rw [if_neg he] at hl
      exact ih hw.2 hl

theorem compatDicts_lookup {d1 d2 : List (String × PyErr)} {k : String} {v1 v2 : PyErr}
    (hc : compatDicts d1 d2 = true) (h1 : lookupKey d1 k = some v1)
    (h2 : lookupKey d2 k = some v2) : compatb v1 v2 = true := by
  induction d1 with
  | nil => simp [lookupKey] at h1
  | cons hd rest ih =>
    obtain ⟨k0, w⟩ := hd
    simp only [compatDicts, Bool.and_eq_true] at hc
    simp only [lookupKey] at h1
    by_cases he : k0 = k
    · rw [if_pos he] at h1
      have hv := Option.some.inj h1
      subst hv
      subst he
      rw [h2] at hc
      exact hc.1
    · rw [if_neg he] at h1
      exact ih hc.2 h1

theorem sizeOf_lookupKey {d : List (String × PyErr)} {k : String} {v : PyErr}
    (h : lookupKey d k = some v) : sizeOf v < sizeOf d := by
  induction d with
  | nil => simp [lookupKey] at h
  | cons hd tl ih =>
    obtain ⟨k1, v1⟩ := hd
    simp only [lookupKey] at h
    by_cases he : k1 = k
    · rw [if_pos he] at h
      have hv := Option.some.inj h
      subst hv
      simp
      omega
    · rw [if_neg he] at h
      have := ih h
      simp
      omega

/-- Key order of the three-way merge agrees under either association. -/
theorem keys_merge_assoc (ka kb kc : List String) :
    (ka ++ kb.filter (fun k => !(decide (k ∈ ka)))) ++
      kc.filter (fun k => !(decide (k ∈ ka ++ kb.filter (fun k2 => !(decide (k2 ∈ ka)))))) =
    ka ++ (kb ++ kc.filter (fun k => !(decide (k ∈ kb)))).filter
      (fun k => !(decide (k ∈ ka))) := by
  rw [List.append_assoc, List.filter_append, List.filter_filter]
  congr 1
  congr 1
  apply List.filter_congr
  intro x _
  by_cases hka : x ∈ ka <;> by_cases hkb : x ∈ kb <;>
    simp [List.mem_append, List.mem_filter, hka, hkb]

/-- `merge_errors` is associative on well-formed, pairwise shape-compatible
error trees: strong-induction core, parameterised by the combined size. -/
theorem merge_errors_assoc_core : ∀ n : Nat, ∀ a b c : PyErr,
    sizeOf a + sizeOf b + sizeOf c = n →
    wfb a = true → wfb b = true → wfb c = true →
    compatb a b = true → compatb b c = true → compatb a c = true →
    merge_errors (merge_errors a b) c = merge_errors a (merge_errors b c) := by
  intro n
  induction n using Nat.strong_induction_on with
  | _ n ih =>
  intro a b c hn ha hb hc hab hbc hac
  cases a with
  | scalar s => simp [wfb] at ha
  | lst l1 =>
    cases b with
    | scalar s => simp [wfb] at hb
    | dict d2 => simp [compatb] at hab
    | lst l2 =>
      cases c with
      | scalar s => simp [wfb] at hc
      | dict d3 => simp [compatb] at hbc
      | lst l3 => simp [merge_errors, List.append_assoc]
  | dict d1 =>
    cases b with
    | scalar s => simp [wfb] at hb
    | lst l2 => simp [compatb] at hab
    | dict d2 =>
      cases c with
      | scalar s => simp [wfb] at hc
      | lst l3 => simp [compatb] at hbc
      | dict d3 =>
        obtain ⟨hnd1, hwl1⟩ := wfb_dict_iff.mp ha
        obtain ⟨hnd2, hwl2⟩ := wfb_dict_iff.mp hb
        obtain ⟨hnd3, hwl3⟩ := wfb_dict_iff.mp hc
        have hcd12 : compatDicts d1 d2 = true := by simpa [compatb] using hab
        have hcd23 : compatDicts d2 d3 = true := by simpa [compatb] using hbc
        have hcd13 : compatDicts d1 d3 = true := by simpa [compatb] using hac
        simp only [merge_errors]
        congr 1
        apply assocList_ext
        · simp only [keysOf_mergeInto2 hnd3, keysOf_mergeInto2 hnd2,
            keysOf_mergeInto2 (nodup_keysOf_mergeInto hnd2 hnd3)]
          exact keys_merge_assoc (keysOf d1) (keysOf d2) (keysOf d3)
        · exact nodup_keysOf_mergeInto (nodup_keysOf_mergeInto hnd1 hnd2) hnd3
        · intro k
          simp only [lookupKey_mergeInto2 hnd3, lookupKey_mergeInto2 hnd2,
            lookupKey_mergeInto2 (nodup_keysOf_mergeInto hnd2 hnd3)]
          cases h1 : lookupKey d1 k with
          | none =>
            cases h2 : lookupKey d2 k with
            | none => cases h3 : lookupKey d3 k <;> rfl
            | some v2 => cases h3 : lookupKey d3 k <;> rfl
          | some v1 =>
            cases h2 : lookupKey d2 k with
            | none => cases h3 : lookupKey d3 k <;> rfl
            | some v2 =>
              cases h3 : lookupKey d3 k with
              | none => rfl
              | some v3 =>
                have hs1 := sizeOf_lookupKey h1
                have hs2 := sizeOf_lookupKey h2
                have hs3 := sizeOf_lookupKey h3
                have hlt : sizeOf v1 + sizeOf v2 + sizeOf v3 < n := by
                  simp only [PyErr.dict.sizeOf_spec] at hn
                  omega
                exact congrArg some (ih (sizeOf v1 + sizeOf v2 + sizeOf v3) hlt v1 v2 v3 rfl
                  (wfbList_lookup hwl1 h1) (wfbList_lookup hwl2 h2) (wfbList_lookup hwl3 h3)
                  (compatDicts_lookup hcd12 h1 h2) (compatDicts_lookup hcd23 h2 h3)
                  (compatDicts_lookup hcd13 h1 h3))

theorem merge_errors_assoc (a b c : PyErr)
    (ha : wfb a = true) (hb : wfb b = true) (hc : wfb c = true)
    (hab : compatb a b = true) (hbc : compatb b c = true) (hac : compatb a c = true) :
    merge_errors (merge_errors a b) c = merge_errors a (merge_errors b c) :=
  merge_errors_assoc_core (sizeOf a + sizeOf b + sizeOf c) a b c rfl ha hb hc hab hbc hac

/-- C2 (counterexample): associativity of `merge_errors` fails on error trees
whose leaves are all message lists, when a shared key holds a list in one tree
and a nested dict in another: with a = {"k": ["x"]}, b = {"k": {"b": ["y"]}},
c = {"k": ["z"]}, merging (a⊕b)⊕c gives {"k": ["z"]} but a⊕(b⊕c) gives
{"k": ["x", "z"]}. -/
theorem C2_assoc_counterexample :
    wfb (PyErr.dict [("k", PyErr.lst [PyErr.scalar "x"])]) = true ∧
    wfb (PyErr.dict [("k", PyErr.dict [("b", PyErr.lst [PyErr.scalar "y"])])]) = true ∧
    wfb (PyErr.dict [("k", PyErr.lst [PyErr.scalar "z"])]) = true ∧
    merge_errors
        (merge_errors (PyErr.dict [("k", PyErr.lst [PyErr.scalar "x"])])
          (PyErr.dict [("k", PyErr.dict [("b", PyErr.lst [PyErr.scalar "y"])])]))
        (PyErr.dict [("k", PyErr.lst [PyErr.scalar "z"])]) ≠
      merge_errors (PyErr.dict [("k", PyErr.lst [PyErr.scalar "x"])])
        (merge_errors (PyErr.dict [("k", PyErr.dict [("b", PyErr.lst [PyErr.scalar "y"])])])
          (PyErr.dict [("k", PyErr.lst [PyErr.scalar "z"])])) := by
  refine ⟨by simp [wfb, wfbList, keysOf], by simp [wfb, wfbList, keysOf],
    by simp [wfb, wfbList, keysOf], ?_⟩
  simp [merge_errors, mergeInto, lookupKey, setKey]

/-- C2 (amended): `merge_errors` concatenates message lists at matching leaves
preserving order, recursively merges matching nested trees (both concrete
examples from the spec hold), and is associative on well-formed list-leaf
trees provided every key shared between two of the trees carries the same
shape (list vs dict) in both — with mixed shapes at a shared key the merge
keeps only the second entry and associativity fails. -/
theorem C2_merge_errors_concat_and_assoc :
    (∀ l1 l2 : List PyErr, merge_errors (PyErr.lst l1) (PyErr.lst l2) = PyErr.lst (l1 ++ l2)) ∧
    (merge_errors (PyErr.dict [("a", PyErr.lst [PyErr.scalar "x"])])
        (PyErr.dict [("a", PyErr.lst [PyErr.scalar "y"])]) =
      PyErr.dict [("a", PyErr.lst [PyErr.scalar "x", PyErr.scalar "y"])]) ∧
    (merge_errors (PyErr.dict [("a", PyErr.dict [("b", PyErr.lst [PyErr.scalar "x"])])])
        (PyErr.dict [("a", PyErr.dict [("b", PyErr.lst [PyErr.scalar "y"])])]) =
      PyErr.dict [("a", PyErr.dict [("b", PyErr.lst [PyErr.scalar "x", PyErr.scalar "y"])])]) ∧
    (∀ a b c : PyErr, wfb a = true → wfb b = true → wfb c = true →
      compatb a b = true → compatb b c = true → compatb a c = true →
      merge_errors (merge_errors a b) c = merge_errors a (merge_errors b c)) := by
  refine ⟨?_, ?_, ?_, ?_⟩
  · intro l1 l2
    simp [merge_errors]
  · simp [merge_errors, mergeInto, lookupKey, setKey]
  · simp [merge_errors, mergeInto, lookupKey, setKey]
  · intro a b c ha hb hc hab hbc hac
    exact merge_errors_assoc a b c ha hb hc hab hbc hac

/-- C2 (witness): the amended theorem applied at a = {"k": ["x"]},
b = {"k": ["y"]}, c = {"k": ["z"]}. -/
theorem C2_merge_errors_concat_and_assoc_witness :
    merge_errors
        (merge_errors (PyErr.dict [("k", PyErr.lst [PyErr.scalar "x"])])
          (PyErr.dict [("k", PyErr.lst [PyErr.scalar "y"])]))
        (PyErr.dict [("k", PyErr.lst [PyErr.scalar "z"])]) =
      merge_errors (PyErr.dict [("k", PyErr.lst [PyErr.scalar "x"])])
        (merge_errors (PyErr.dict [("k", PyErr.lst [PyErr.scalar "y"])])
          (PyErr.dict [("k", PyErr.lst [PyErr.scalar "z"])])) :=
  C2_merge_errors_concat_and_assoc.2.2.2 _ _ _
    (by simp [wfb, wfbList, keysOf]) (by simp [wfb, wfbList, keysOf])
    (by simp [wfb, wfbList, keysOf])
    (by simp [compatb, compatDicts, lookupKey]) (by simp [compatb, compatDicts, lookupKey])
    (by simp [compatb, compatDicts, lookupKey])

/-- C3: evaluation of `merge_errors` at the failing input
`merge_errors({"a": ["x"]}, {"a": {"b": ["y"]}})`: the `else: return errors2`
branch replaces the existing message list `["x"]` with the second tree's
nested dict, so the message "x" is no longer reachable under key "a" — the
merge overwrites instead of preserving both entries. -/
theorem C3_merge_overwrites_on_shape_mismatch :
    merge_errors (PyErr.dict [("a", PyErr.lst [PyErr.scalar "x"])])
      (PyErr.dict [("a", PyErr.dict [("b", PyErr.lst [PyErr.scalar "y"])])]) =
    PyErr.dict [("a", PyErr.dict [("b", PyErr.lst [PyErr.scalar "y"])])] := by
  simp [merge_errors, mergeInto, lookupKey, setKey]

/-!
## `ErrorStore` (`error_store.py`)

`ErrorStore.errors` is a Python dict from field names to lists of stored
errors; it is embedded as an association list (String keys, `PyErr` error
payloads) with dict insertion-order semantics.
-/

/-- Embeds `ErrorStore.store_error`: if the field name is absent a fresh
empty list is created (appended at the end of the dict), then the error is
appended to the field's list in place. -/
def store_error : List (String × List PyErr) → String → PyErr → List (String × List PyErr)
  | [], field_name, error => [(field_name, [error])]
  | (k, l) :: rest, field_name, error =>
    if k = field_name then (k, l ++ [error]) :: rest
    else (k, l) :: store_error rest field_name error

/-- Dict lookup on the embedded error store. -/
def lookupStore : List (String × List PyErr) → String → Option (List PyErr)
  | [], _ => none
  | (k, l) :: rest, field_name =>
    if k = field_name then some l else lookupStore rest field_name

/-- A fresh `ErrorStore` (`self.errors = {}`) run through a finite sequence
of `store_error(field_name, error)` calls. -/
def runStoreErrors (calls : List (String × PyErr)) : List (String × List PyErr) :=
  calls.foldl (fun st c => store_error st c.1 c.2) []

theorem lookupStore_store_error_self (st : List (String × List PyErr)) (k : String) (e : PyErr) :
    lookupStore (store_error st k e) k =
      some (((lookupStore st k).getD []) ++ [e]) := by
  induction st with
  | nil => simp [store_error, lookupStore]
  | cons hd rest ih =>
    obtain ⟨k0, l0⟩ := hd
    by_cases he : k0 = k
    · simp [store_error, lookupStore, he]
    · simp [store_error, lookupStore, he, ih]

theorem lookupStore_store_error_ne (st : List (String × List PyErr)) {k k' : String}
    (h : k' ≠ k) (e : PyErr) : lookupStore (store_error st k e) k' = lookupStore st k' := by
  induction st with
  | nil =>
    simp only [store_error, lookupStore]
    rw [if_neg (fun hc : k = k' => h hc.symm)]
  | cons hd rest ih =>
    obtain ⟨k0, l0⟩ := hd
    by_cases he : k0 = k
    · subst he
      simp only [store_error, if_pos rfl, lookupStore]
      rw [if_neg (fun hc : k0 = k' => h hc.symm), if_neg (fun hc : k0 = k' => h hc.symm)]
    · simp only [store_error, if_neg he, lookupStore]
      by_cases he2 : k0 = k'
      · simp [he2]
      · simp [he2, ih]

/-- Folding `store_error` calls over any starting store, characterised
pointwise. -/
theorem lookupStore_foldl (calls : List (String × PyErr)) :
    ∀ st k, lookupStore (calls.foldl (fun st c => store_error st c.1 c.2) st) k =
      match lookupStore st k, (calls.filter (fun c => decide (c.1 = k))).map Prod.snd with
      | some old, new => some (old ++ new)
      | none, [] => none
      | none, new => some new := by
  induction calls with
  | nil =>
    intro st k
    cases h : lookupStore st k <;> simp [h]
  | cons hd rest ih =>
    intro st k
    obtain ⟨k0, e0⟩ := hd
    simp only [List.foldl_cons]
    rw [ih]
    by_cases he : k0 = k
    · subst he
      rw [lookupStore_store_error_self]
      simp only [List.filter_cons, decide_eq_true_eq, if_pos rfl, List.map_cons]
      cases h : lookupStore st k0 with
      | some old => simp [h, List.append_assoc]
      | none => simp [h]
    · rw [lookupStore_store_error_ne _ (fun hc => he hc.symm)]
      have hfil : (((k0, e0) :: rest).filter (fun c => decide (c.1 = k))) =
          rest.filter (fun c => decide (c.1 = k)) := by
        simp [List.filter_cons, he]
      rw [hfil]

/-!
## `Schema._call_and_store` (`schema.py`) and its broken call into
`ErrorStore.store_error`

`_call_and_store` catches a `ValidationError` raised by `getter_func` and
executes `error_store.store_error(error.messages, field_name, index=index)`.
The `store_error` defined in `error_store.py` declares exactly the
parameters `(self, field_name, error)` — no `index` parameter and no
`**kwargs` — so CPython's call binding raises
`TypeError: store_error() got an unexpected keyword argument 'index'`
before the method body runs.  The keyword-binding step is embedded
explicitly below.
-/

/-- The parameter names of `ErrorStore.store_error` as declared in
`error_store.py`. -/
def store_error_params : List String := ["self", "field_name", "error"]

/-- The keyword-argument names passed at the `store_error` call site inside
`_call_and_store` (`index=index`). -/
def call_and_store_call_keywords : List String := ["index"]

/-- CPython keyword binding for the `store_error` call: the first keyword
naming no declared parameter yields the `TypeError` message. -/
def bindStoreErrorCall (kwargs : List String) : Option String :=
  kwargs.findSome? (fun kw =>
    if store_error_params.contains kw then none
    else some ("store_error() got an unexpected keyword argument " ++ kw))

/-- Embeds `Schema._call_and_store`.  A getter returning normally yields its
value and leaves the store untouched; a getter raising `ValidationError`
reaches the `store_error` call, whose keyword binding fails as described
above, so the `TypeError` propagates out of `_call_and_store`.  (`some`/
`none` in the first result component stand for a value / the `missing`
sentinel; the `none` branch of the keyword binding is unreachable because
`"index"` never binds.) -/
def _call_and_store {α β : Type} (getter_func : α → Except PyErr β) (data : α)
    (field_name : String) (error_store : List (String × List PyErr)) :
    Except String (Option β × List (String × List PyErr)) :=
  match getter_func data with
  | Except.ok value => Except.ok (some value, error_store)
  | Except.error _ =>
    match bindStoreErrorCall call_and_store_call_keywords with
    | some msg => Except.error ("TypeError: " ++ msg)
    | none => Except.ok (none, store_error error_store field_name (PyErr.lst []))

/-- C5: evaluating `_call_and_store` at a getter that raises a
`ValidationError` (messages `["oops"]`, field name "x", fresh store): the
call raises `TypeError` instead of recording the messages under "x" and
returning the missing sentinel; a getter returning normally yields its value
with the store unchanged. -/
theorem C5_call_and_store_raises_type_error :
    (_call_and_store
        (fun _ : Unit => (Except.error (PyErr.lst [PyErr.scalar "oops"]) : Except PyErr Unit))
        () "x" [] =
      Except.error "TypeError: store_error() got an unexpected keyword argument index") ∧
    (_call_and_store (fun _ : Unit => (Except.ok () : Except PyErr Unit)) () "x" [] =
      Except.ok (some (), [])) :=
  ⟨rfl, rfl⟩

/-- C9: starting from a fresh `ErrorStore`, after any finite sequence of
`store_error` calls the stored mapping holds, under each key, exactly the
errors stored under that key in call order — and a key is present exactly
when at least one error was stored under it, so every stored list is
non-empty. -/
theorem C9_error_store_invariant (calls : List (String × PyErr)) (k : String) :
    lookupStore (runStoreErrors calls) k =
      match (calls.filter (fun c => decide (c.1 = k))).map Prod.snd with
      | [] => none
      | msgs => some msgs := by
  rw [runStoreErrors, lookupStore_foldl]
  cases hm : (calls.filter (fun c => decide (c.1 = k))).map Prod.snd <;>
    simp [lookupStore]

/-!
## The class registry (`class_registry.py`)

The module-level `_registry` dict maps names to lists of classes; a class is
embedded as its module and bare name.  `register` executes
`_registry[classname] = [cls]` and `_registry[f"{cls.__module__}.{cls.__name__}"] = [cls]`:
plain dict assignments, each binding the key to a fresh singleton list.
-/

structure PyClass where
  module : String
  name : String
deriving DecidableEq

/-- Dict lookup in the embedded registry. -/
def regLookup : List (String × List PyClass) → String → Option (List PyClass)
  | [], _ => none
  | (k, v) :: rest, classname =>
    if k = classname then some v else regLookup rest classname

/-- Dict assignment `_registry[key] = value`: replace in place if the key
exists, append at the end otherwise. -/
def regSet : List (String × List PyClass) → String → List PyClass → List (String × List PyClass)
  | [], key, value => [(key, value)]
  | (k, v) :: rest, key, value =>
    if k = key then (k, value) :: rest else (k, v) :: regSet rest key value

/-- Embeds `register` from `class_registry.py`: both the bare classname entry
and the fully-qualified entry are assigned the singleton `[cls]`. -/
def register (r : List (String × List PyClass)) (classname : String) (cls : PyClass) :
    List (String × List PyClass) :=
  regSet (regSet r classname [cls]) (cls.module ++ "." ++ cls.name) [cls]

/-- Embeds `get_class` from `class_registry.py`: a missing name raises
`RegistryError` ("was not found"), `all=True` returns the whole list,
more than one entry raises `RegistryError` ("Multiple classes"), and
otherwise `classes[0]` is returned (an empty list would raise `IndexError`;
unreachable for registries built by `register`). -/
def get_class (r : List (String × List PyClass)) (classname : String) (all : Bool) :
    Except String (List PyClass ⊕ PyClass) :=
  match regLookup r classname with
  | none => Except.error ("RegistryError: Class with name " ++ classname ++ " was not found.")
  | some classes =>
    if all then Except.ok (Sum.inl classes)
    else if classes.length > 1 then
      Except.error ("RegistryError: Multiple classes with name " ++ classname ++
        " were found. Please use the full, module-qualified path.")
    else
      match classes with
      | c :: _ => Except.ok (Sum.inr c)
      | [] => Except.error "IndexError"

/-- C4: evaluation at the failing input.  After registering `m1.MyClass` and
then `m2.MyClass` under the same bare name, a bare-name `get_class` with
`all=False` returns the most recently registered class instead of raising
the ambiguity `RegistryError`: `register` rebinds the bare-name entry to a
fresh singleton list, so the "Multiple classes" branch of `get_class` is
unreachable.  Fully-qualified lookups and the not-found error behave as the
claim states. -/
theorem C4_bare_name_lookup_returns_last_registered :
    (get_class (register (register [] "MyClass" ⟨"m1", "MyClass"⟩) "MyClass" ⟨"m2", "MyClass"⟩)
        "MyClass" false = Except.ok (Sum.inr ⟨"m2", "MyClass"⟩)) ∧
    (get_class (register (register [] "MyClass" ⟨"m1", "MyClass"⟩) "MyClass" ⟨"m2", "MyClass"⟩)
        "m1.MyClass" false = Except.ok (Sum.inr ⟨"m1", "MyClass"⟩)) ∧
    (get_class (register (register [] "MyClass" ⟨"m1", "MyClass"⟩) "MyClass" ⟨"m2", "MyClass"⟩)
        "m2.MyClass" false = Except.ok (Sum.inr ⟨"m2", "MyClass"⟩)) ∧
    (get_class (register (register [] "MyClass" ⟨"m1", "MyClass"⟩) "MyClass" ⟨"m2", "MyClass"⟩)
        "Missing" false =
      Except.error "RegistryError: Class with name Missing was not found.") :=
  ⟨rfl, rfl, rfl, rfl⟩

/-!
## `get_value` (`utils.py`)

A Python object is embedded by its two access capabilities: subscript
access `obj[key]` (`getitem`) and attribute access `getattr(obj, key)`
(`getattro`), each either returning an object or raising an exception.
The `tag` field gives distinct embedded objects distinct identities.
-/

inductive PyExc : Type where
  | keyError
  | indexError
  | typeError
  | attributeError
  | otherError : String → PyExc
deriving DecidableEq

inductive PyObj : Type where
  | mk (tag : Nat) (getitem : String → Except PyExc PyObj)
    (getattro : String → Except PyExc PyObj)

def PyObj.getitem : PyObj → String → Except PyExc PyObj
  | PyObj.mk _ f _ => f

def PyObj.getattro : PyObj → String → Except PyExc PyObj
  | PyObj.mk _ _ g => g

/-- The `missing` singleton from `utils.py`: not subscriptable, no
attributes. -/
def missing_obj : PyObj :=
  PyObj.mk 0 (fun _ => Except.error PyExc.typeError)
    (fun _ => Except.error PyExc.attributeError)

/-- The exception classes `_get_value_for_key` treats as "not found" on the
subscript attempt: `except (KeyError, IndexError, TypeError, AttributeError)`. -/
def notFoundExc : PyExc → Bool
  | PyExc.keyError => true
  | PyExc.indexError => true
  | PyExc.typeError => true
  | PyExc.attributeError => true
  | PyExc.otherError _ => false

/-- Embeds `_get_value_for_key` from `utils.py`: try `obj[key]`; on a
not-found-style exception try `getattr(obj, key)`; on `AttributeError`
return the default.  Any other exception propagates. -/
def _get_value_for_key (obj : PyObj) (key : String) (default : PyObj) :
    Except PyExc PyObj :=
  match obj.getitem key with
  | Except.ok v => Except.ok v
  | Except.error e =>
    if notFoundExc e then
      match obj.getattro key with
      | Except.ok v => Except.ok v
      | Except.error e2 =>
        if e2 = PyExc.attributeError then Except.ok default else Except.error e2
    else Except.error e

/-- Embeds Python `key.split(".")` (as used by `get_value`), structurally
over the key's characters. -/
def splitDotChars : List Char → List Char → List String
  | [], acc => [String.mk acc.reverse]
  | c :: rest, acc =>
    if c = '.' then String.mk acc.reverse :: splitDotChars rest []
    else splitDotChars rest (c :: acc)

def splitDot (s : String) : List String := splitDotChars s.toList []

/-- Embeds `_get_value_for_keys` from `utils.py`: a single key delegates to
`_get_value_for_key`; a longer path recurses on the first key's result (an
exception raised along the way propagates). -/
def _get_value_for_keys (obj : PyObj) (keys : List String) (default : PyObj) :
    Except PyExc PyObj :=
  match keys with
  | [k] => _get_value_for_key obj k default
  | k :: rest =>
    match _get_value_for_key obj k default with
    | Except.ok next => _get_value_for_keys next rest default
    | Except.error e => Except.error e
  | [] => Except.error PyExc.indexError

/-- Embeds `get_value` from `utils.py` for string keys (the
`isinstance(key, int)` branch is not representable with embedded string
keys): split the key on "." and walk the path.  The Python `default`
parameter defaults to the `missing` sentinel. -/
def get_value (obj : PyObj) (key : String) (default : PyObj) : Except PyExc PyObj :=
  _get_value_for_keys obj (splitDot key) default

theorem splitDotChars_no_dot (cs : List Char) :
    ∀ acc : List Char, cs.contains '.' = false →
    splitDotChars cs acc = [String.mk (acc.reverse ++ cs)] := by
  induction cs with
  | nil =>
    intro acc _
    simp [splitDotChars]
  | cons c rest ih =>
    intro acc h
    simp only [List.contains_cons, Bool.or_eq_false_iff] at h
    have hc : ¬(c = '.') := by
      intro hcc
      subst hcc
      simp at h
    simp only [splitDotChars, if_neg hc]
    rw [ih (c :: acc) h.2]
    simp

theorem splitDot_no_dot {key : String} (h : key.toList.contains '.' = false) :
    splitDot key = [key] := by
  rw [splitDot, splitDotChars_no_dot _ _ h]
  simp [String.toList]

/-- C6: for any object and dot-free string key, `get_value` returns the
subscript result when `obj[key]` succeeds; when the subscript raises one of
the not-found exception classes (KeyError, IndexError, TypeError,
AttributeError) it falls back to `getattr(obj, key)`; and when the fallback
raises `AttributeError` it returns the supplied default instead of
raising. -/
theorem C6_get_value_access_chain (obj : PyObj) (key : String) (default : PyObj)
    (hdot : key.toList.contains '.' = false) :
    (∀ v, obj.getitem key = Except.ok v → get_value obj key default = Except.ok v) ∧
    (∀ e, obj.getitem key = Except.error e → notFoundExc e = true →
      (∀ v, obj.getattro key = Except.ok v → get_value obj key default = Except.ok v) ∧
      (obj.getattro key = Except.error PyExc.attributeError →
        get_value obj key default = Except.ok default)) := by
  have hsplit : splitDot key = [key] := splitDot_no_dot hdot
  constructor
  · intro v hv
    simp [get_value, hsplit, _get_value_for_keys, _get_value_for_key, hv]
  · intro e he hnf
    constructor
    · intro v hv
      simp [get_value, hsplit, _get_value_for_keys, _get_value_for_key, he, hnf, hv]
    · intro ha
      simp [get_value, hsplit, _get_value_for_keys, _get_value_for_key, he, hnf, ha]

/-- C6 (witness): a dict-like object without key "a" and without attributes:
`get_value` returns the `missing` default. -/
theorem C6_get_value_access_chain_witness :
    get_value
        (PyObj.mk 1 (fun _ => Except.error PyExc.keyError)
          (fun _ => Except.error PyExc.attributeError)) "a" missing_obj =
      Except.ok missing_obj :=
  ((C6_get_value_access_chain
      (PyObj.mk 1 (fun _ => Except.error PyExc.keyError)
        (fun _ => Except.error PyExc.attributeError)) "a" missing_obj (by decide)).2
    PyExc.keyError rfl rfl).2 rfl

/-!
## A small universe of Python values

Used to embed the dynamically-typed option and default values flowing
through `Field.__init__`, `SchemaOpts.__init__` and `Schema.__init__`.
`missingv` embeds the `missing` sentinel singleton from `utils.py`
(identity checks `x is missing_` become matches on this constructor).
-/

inductive PyVal : Type where
  | vnone
  | missingv
  | vbool : Bool → PyVal
  | vint : Int → PyVal
  | vstr : String → PyVal
  | vlist : List PyVal → PyVal
  | vtuple : List PyVal → PyVal
  | vdict : List (PyVal × PyVal) → PyVal

def isMissing : PyVal → Bool
  | PyVal.missingv => true
  | _ => false

def isNone : PyVal → Bool
  | PyVal.vnone => true
  | _ => false

/-- Embeds `is_iterable_but_not_string` from `utils.py` on the value
universe: lists, tuples and dicts are iterable; strings are excluded. -/
def is_iterable_but_not_string : PyVal → Bool
  | PyVal.vlist _ => true
  | PyVal.vtuple _ => true
  | PyVal.vdict _ => true
  | _ => false

def isMapping : PyVal → Bool
  | PyVal.vdict _ => true
  | _ => false

/-- Embeds `is_collection` from `utils.py`: iterable, not a string, not a
mapping. -/
def is_collection (v : PyVal) : Bool :=
  is_iterable_but_not_string v && !(isMapping v)

/-- Python truthiness (`bool(x)`) on the value universe; the `missing`
sentinel defines `__bool__` as `False`. -/
def pyTruthy : PyVal → Bool
  | PyVal.vnone => false
  | PyVal.missingv => false
  | PyVal.vbool b => b
  | PyVal.vint n => decide (n ≠ 0)
  | PyVal.vstr s => decide (s ≠ "")
  | PyVal.vlist l => !l.isEmpty
  | PyVal.vtuple l => !l.isEmpty
  | PyVal.vdict d => !d.isEmpty

def isListOrTuple : PyVal → Bool
  | PyVal.vlist _ => true
  | PyVal.vtuple _ => true
  | _ => false

/-!
## `Field.__init__` (`fields.py`)
-/

/-- Embeds `Field.default_error_messages` (`fields.py`). -/
def default_error_messages : List (String × String) :=
  [("required", "Missing data for required field."),
   ("null", "Field may not be null."),
   ("validator_failed", "Invalid value.")]

def requiredMessage : String :=
  (default_error_messages.lookup "required").getD ""

def nullMessage : String :=
  (default_error_messages.lookup "null").getD ""

/-- The shapes a `validate` argument can take, as `Field.__init__`
distinguishes them: `None` is embedded as `Option.none`, a callable, a
non-string iterable of values, or anything else. -/
inductive ValidateArg : Type where
  | vcallable : ValidateArg
  | viterable : List ValidateArg → ValidateArg
  | vother : ValidateArg

/-- The keyword arguments of `Field.__init__` that the embedding tracks
(`attribute`, `data_key`, `error_messages` and `metadata` are plain
assignments that cannot raise). -/
structure FieldArgs where
  load_default : PyVal
  missing : PyVal
  dump_default : PyVal
  default : PyVal
  validate : Option ValidateArg
  required : Bool
  allow_none : Option Bool
  load_only : Bool
  dump_only : Bool

structure Field where
  dump_default : PyVal
  load_default : PyVal
  validators : List ValidateArg
  allow_none : Bool
  load_only : Bool
  dump_only : Bool
  required : Bool

/-- The deprecated-`default` merge at the top of `Field.__init__`:
`if default is not missing_: ... if dump_default is missing_: dump_default = default`. -/
def resolved_dump_default (args : FieldArgs) : PyVal :=
  match args.default with
  | PyVal.missingv => args.dump_default
  | d =>
    match args.dump_default with
    | PyVal.missingv => d
    | dd => dd

/-- The deprecated-`missing` merge in `Field.__init__`:
`if missing is not missing_: ... if load_default is missing_: load_default = missing`. -/
def resolved_load_default (args : FieldArgs) : PyVal :=
  match args.missing with
  | PyVal.missingv => args.load_default
  | m =>
    match args.load_default with
    | PyVal.missingv => m
    | ld => ld

/-- The `validate` handling in `Field.__init__`: `None` gives no validators,
a callable a singleton, a non-string iterable its list, and anything else
raises `ValueError`. -/
def validatorsOf : Option ValidateArg → Except String (List ValidateArg)
  | none => Except.ok []
  | some ValidateArg.vcallable => Except.ok [ValidateArg.vcallable]
  | some (ValidateArg.viterable l) => Except.ok l
  | some ValidateArg.vother =>
    Except.error
      "ValueError: The validate parameter must be a callable or a collection of callables."

/-- Embeds `Field.__init__` in source order: the two deprecation merges, the
`validate` check (may raise `ValueError`),
`self.allow_none = load_default is None if allow_none is None else allow_none`,
the visibility flags, and the guard
`if required is True and load_default is not missing_: raise ValueError`. -/
def Field_init (args : FieldArgs) : Except String Field :=
  match validatorsOf args.validate with
  | Except.error e => Except.error e
  | Except.ok validators =>
    if args.required && !(isMissing (resolved_load_default args)) then
      Except.error "ValueError: load_default must not be set for required fields."
    else
      Except.ok ⟨resolved_dump_default args, resolved_load_default args, validators,
        (match args.allow_none with
         | some b => b
         | none => isNone (resolved_load_default args)),
        args.load_only, args.dump_only, args.required⟩

theorem isNone_iff {v : PyVal} : isNone v = true ↔ v = PyVal.vnone := by
  cases v <;> simp [isNone]

/-- C8: when `allow_none` is not passed, a successfully constructed field has
`allow_none = True` exactly when its resolved load default is `None`; when
`allow_none` is passed explicitly, the passed value is used regardless of
the load default. -/
theorem C8_allow_none_defaults (args : FieldArgs) (f : Field)
    (hok : Field_init args = Except.ok f) :
    (args.allow_none = none → (f.allow_none = true ↔ f.load_default = PyVal.vnone)) ∧
    (∀ b, args.allow_none = some b → f.allow_none = b) := by
  cases hv : validatorsOf args.validate with
  | error e =>
    simp only [Field_init, hv] at hok
    exact absurd hok (by simp)
  | ok validators =>
    simp only [Field_init, hv] at hok
    by_cases hcond : (args.required && !(isMissing (resolved_load_default args))) = true
    · rw [if_pos hcond] at hok
      exact absurd hok (by simp)
    · rw [if_neg hcond] at hok
      have hf := Except.ok.inj hok
      subst hf
      constructor
      · intro hnone
        simp only [hnone]
        exact isNone_iff
      · intro b hb
        simp [hb]

/-- C8 (witness): constructing a field with `load_default=None` and no
explicit `allow_none` yields `allow_none = True`. -/
theorem C8_allow_none_defaults_witness :
    (Field.mk PyVal.missingv PyVal.vnone [] true false false false).allow_none = true :=
  ((C8_allow_none_defaults
      ⟨PyVal.vnone, PyVal.missingv, PyVal.missingv, PyVal.missingv, none, false, none,
        false, false⟩
      (Field.mk PyVal.missingv PyVal.vnone [] true false false false) rfl).1 rfl).mpr rfl

/-- C10: constructing a field with `required=True` and a resolved load
default other than the `missing` sentinel always fails with an error (either
the `validate`-parameter `ValueError` or the
"'load_default' must not be set for required fields" `ValueError`). -/
theorem C10_required_rejects_load_default (args : FieldArgs)
    (hreq : args.required = true)
    (hld : isMissing (resolved_load_default args) = false) :
    ∃ msg, Field_init args = Except.error msg := by
  unfold Field_init
  cases hv : validatorsOf args.validate with
  | error e => exact ⟨e, rfl⟩
  | ok validators =>
    refine ⟨"ValueError: load_default must not be set for required fields.", ?_⟩
    simp [hreq, hld]

/-- C10 (witness): `required=True` with `load_default=None` is rejected. -/
theorem C10_required_rejects_load_default_witness :
    ∃ msg,
      Field_init
          ⟨PyVal.vnone, PyVal.missingv, PyVal.missingv, PyVal.missingv, none, true, none,
            false, false⟩ =
        Except.error msg :=
  C10_required_rejects_load_default
    ⟨PyVal.vnone, PyVal.missingv, PyVal.missingv, PyVal.missingv, none, true, none,
      false, false⟩ rfl rfl

/-!
## `SchemaOpts.__init__` and `Schema.__init__` (`schema.py`)

Meta options are read with `getattr(meta, name, default)`: an unset option
is embedded as `Option.none` and replaced by its default.  Only the options
taking part in the embedded checks are tracked; the remaining options
(`dateformat`, `render_module`, `ordered`, ...) are plain attribute copies
that cannot raise.
-/

structure Meta where
  fields : Option PyVal
  additional : Option PyVal
  exclude : Option PyVal
  unknown : Option PyVal

structure SchemaOptsRec where
  fields : PyVal
  additional : PyVal
  exclude : PyVal
  unknown : String

/-- `getattr(meta, name, ())`. -/
def getOrEmptyTuple (o : Option PyVal) : PyVal :=
  match o with
  | some v => v
  | none => PyVal.vtuple []

/-- Modelled from the spec: `validate_unknown_parameter_value` is imported
by `schema.py` from `marshmallow.utils` but absent from the source tree.
Per the spec the `unknown` option must be one of `EXCLUDE`/`INCLUDE`/`RAISE`
(the strings "exclude"/"include"/"raise"); any other value is an error. -/
def validate_unknown_parameter_value (v : PyVal) : Except String String :=
  match v with
  | PyVal.vstr s =>
    if s = "exclude" || s = "include" || s = "raise" then Except.ok s
    else Except.error "ValueError: Object must be one of exclude, include, raise."
  | _ => Except.error "ValueError: Object must be one of exclude, include, raise."

/-- Embeds `SchemaOpts.__init__` in source order: the `fields` type check,
the `additional` type check, the `fields`+`additional` exclusion check, the
`exclude` type check, then the `unknown` validation. -/
def SchemaOpts_init (meta : Meta) : Except String SchemaOptsRec :=
  if !(isListOrTuple (getOrEmptyTuple meta.fields)) then
    Except.error "ValueError: The fields option must be a list or tuple."
  else if !(isListOrTuple (getOrEmptyTuple meta.additional)) then
    Except.error "ValueError: The additional option must be a list or tuple."
  else if pyTruthy (getOrEmptyTuple meta.fields) && pyTruthy (getOrEmptyTuple meta.additional) then
    Except.error "ValueError: Cannot set both the fields and additional options for the same Schema."
  else if !(isListOrTuple (getOrEmptyTuple meta.exclude)) then
    Except.error "ValueError: The exclude option must be a list or tuple."
  else
    match validate_unknown_parameter_value (match meta.unknown with
      | some v => v
      | none => PyVal.vstr "raise") with
    | Except.error e => Except.error e
    | Except.ok unk =>
      Except.ok ⟨getOrEmptyTuple meta.fields, getOrEmptyTuple meta.additional,
        getOrEmptyTuple meta.exclude, unk⟩

structure SchemaInstRec where
  only : Option PyVal
  exclude : PyVal
  many : Bool

/-- The guard `if only is not None and not is_collection(only)` at the top
of `Schema.__init__`. -/
def onlyInvalid : Option PyVal → Bool
  | none => false
  | some v => !(is_collection v)

/-- Embeds the argument validation at the top of `Schema.__init__`: a
non-collection `only` (when passed) and a non-collection `exclude` each
raise `StringNotCollectionError`.  The remainder of the constructor is
plain assignments together with calls to `_normalize_nested_options` and
`_init_fields`, whose bodies are `pass` in the source. -/
def Schema_init (only : Option PyVal) (exclude : PyVal) (many : Bool) :
    Except String SchemaInstRec :=
  if onlyInvalid only then
    Except.error "StringNotCollectionError: only should be a list of strings"
  else if !(is_collection exclude) then
    Except.error "StringNotCollectionError: exclude should be a list of strings"
  else Except.ok ⟨only, exclude, many⟩

/-- C7: malformed declarations fail immediately with a raised error rather
than an error-tree entry: `fields` and `additional` both non-empty raise
`ValueError` when the schema options are built, and a non-collection value
(e.g. a bare string) for `only` or `exclude` raises
`StringNotCollectionError` when the schema instance is built. -/
theorem C7_malformed_declarations_fail_fast :
    (∀ (meta : Meta) (f a : PyVal), meta.fields = some f → meta.additional = some a →
      isListOrTuple f = true → isListOrTuple a = true →
      pyTruthy f = true → pyTruthy a = true →
      SchemaOpts_init meta =
        Except.error
          "ValueError: Cannot set both the fields and additional options for the same Schema.") ∧
    (∀ (v excl : PyVal) (many : Bool), is_collection v = false →
      Schema_init (some v) excl many =
        Except.error "StringNotCollectionError: only should be a list of strings") ∧
    (∀ (v : PyVal) (many : Bool), is_collection v = false →
      Schema_init none v many =
        Except.error "StringNotCollectionError: exclude should be a list of strings") := by
  refine ⟨?_, ?_, ?_⟩
  · intro meta f a hf ha hlf hla htf hta
    simp [SchemaOpts_init, getOrEmptyTuple, hf, ha, hlf, hla, htf, hta]
  · intro v excl many hv
    simp [Schema_init, onlyInvalid, hv]
  · intro v many hv
    simp [Schema_init, onlyInvalid, hv]

/-- C7 (witness): `fields=("a",)` with `additional=("b",)`, a bare-string
`only`, and a bare-string `exclude`, each at a concrete schema. -/
theorem C7_malformed_declarations_fail_fast_witness :
    (SchemaOpts_init
        ⟨some (PyVal.vtuple [PyVal.vstr "a"]), some (PyVal.vtuple [PyVal.vstr "b"]),
          none, none⟩ =
      Except.error
        "ValueError: Cannot set both the fields and additional options for the same Schema.") ∧
    (Schema_init (some (PyVal.vstr "only1")) (PyVal.vtuple []) false =
      Except.error "StringNotCollectionError: only should be a list of strings") ∧
    (Schema_init none (PyVal.vstr "x") false =
      Except.error "StringNotCollectionError: exclude should be a list of strings") :=
  ⟨C7_malformed_declarations_fail_fast.1
      ⟨some (PyVal.vtuple [PyVal.vstr "a"]), some (PyVal.vtuple [PyVal.vstr "b"]), none, none⟩
      (PyVal.vtuple [PyVal.vstr "a"]) (PyVal.vtuple [PyVal.vstr "b"]) rfl rfl rfl rfl rfl rfl,
    C7_malformed_declarations_fail_fast.2.1 (PyVal.vstr "only1") (PyVal.vtuple []) false rfl,
    C7_malformed_declarations_fail_fast.2.2 (PyVal.vstr "x") false rfl⟩

/-!
## The deserialize pass (C1)

`Schema.load`, `Schema._do_load` and `Schema._deserialize` have `pass`
bodies in the source tree, so the pass is modelled from the spec.
-/

/-- One load field as the deserialize pass sees it: requiredness,
nullability, load default, and a converter covering the field's coercion
and validators in one fallible step (per spec, any failure in that chain is
caught at the field boundary as a list of messages). -/
structure LField where
  required : Bool
  allow_none : Bool
  load_default : PyVal
  conv : PyVal → Except (List String) PyVal

def lookupData : List (String × PyVal) → String → Option PyVal
  | [], _ => none
  | (k, v) :: rest, name => if k = name then some v else lookupData rest name

def lookupField : List (String × LField) → String → Option LField
  | [], _ => none
  | (k, f) :: rest, name => if k = name then some f else lookupField rest name

/-- Modelled from the spec: processing one present raw value — a present
`None` is accepted when the field is nullable and rejected with the null
message otherwise; any other value runs the converter chain. -/
def processField (f : LField) (v : PyVal) : Except (List String) PyVal :=
  match v with
  | PyVal.vnone =>
    if f.allow_none then Except.ok PyVal.vnone else Except.error [nullMessage]
  | w => f.conv w

/-- Modelled from the spec: the per-field loop of the deserialize pass
(`Schema._deserialize` is a `pass` stub).  For each load field in order:
an absent required field stores the required-field message under the
field's key and processing of that field stops while the other fields
proceed; an absent optional field applies its load default (skipped when
the default is the `missing` sentinel); a present value runs
`processField`, storing its failure messages under the field's key.
Returns the assembled record and the error-tree entries in field order. -/
def loadFields : List (String × LField) → List (String × PyVal) →
    List (String × PyVal) × List (String × List String)
  | [], _ => ([], [])
  | (name, f) :: rest, data =>
    match lookupData data name with
    | none =>
      if f.required then
        ((loadFields rest data).1, (name, [requiredMessage]) :: (loadFields rest data).2)
      else
        match f.load_default with
        | PyVal.missingv => loadFields rest data
        | d => ((name, d) :: (loadFields rest data).1, (loadFields rest data).2)
    | some v =>
      match processField f v with
      | Except.ok w => ((name, w) :: (loadFields rest data).1, (loadFields rest data).2)
      | Except.error msgs => ((loadFields rest data).1, (name, msgs) :: (loadFields rest data).2)

/-- Modelled from the spec: under the default `RAISE` unknown-field policy,
every input key not mapped to a load field contributes an
"Unknown field." entry under its own key. -/
def unknownErrors (flds : List (String × LField)) (data : List (String × PyVal)) :
    List (String × List String) :=
  (data.filter (fun kv => (lookupField flds kv.1).isNone)).map
    (fun kv => (kv.1, ["Unknown field."]))

/-- Modelled from the spec: `Schema.load` (a `pass` stub in the source)
runs the per-field loop and the unknown-key policy, then fails with the
complete error tree in a single `ValidationError` when any error was
stored, and returns the assembled record otherwise. -/
def load_spec (flds : List (String × LField)) (data : List (String × PyVal)) :
    Except (List (String × List String)) (List (String × PyVal)) :=
  match (loadFields flds data).2 ++ unknownErrors flds data with
  | [] => Except.ok (loadFields flds data).1
  | e :: rest => Except.error (e :: rest)

/-- The names of the required fields absent from the input record, in field
order. -/
def missingRequired (flds : List (String × LField)) (data : List (String × PyVal)) :
    List String :=
  (flds.filter (fun nf => nf.2.required && (lookupData data nf.1).isNone)).map Prod.fst

/-- "Otherwise valid": every field value present in the record processes
without error. -/
def presentOk (flds : List (String × LField)) (data : List (String × PyVal)) : Bool :=
  flds.all (fun nf =>
    match lookupData data nf.1 with
    | some v => (processField nf.2 v).isOk
    | none => true)

/-- Every input key names a declared load field (no unknown-field errors). -/
def allKnown (flds : List (String × LField)) (data : List (String × PyVal)) : Bool :=
  data.all (fun kv => (lookupField flds kv.1).isSome)

theorem loadFields_errors (data : List (String × PyVal)) :
    ∀ flds : List (String × LField), presentOk flds data = true →
    (loadFields flds data).2 =
      (missingRequired flds data).map (fun n => (n, [requiredMessage])) := by
  intro flds
  induction flds with
  | nil => intro _; rfl
  | cons hd rest ih =>
    intro hv
    obtain ⟨name, f⟩ := hd
    simp only [presentOk, List.all_cons, Bool.and_eq_true] at hv
    have hrest := ih hv.2
    have hhd := hv.1
    simp only [loadFields, missingRequired, List.filter_cons]
    cases hl : lookupData data name with
    | none =>
      cases hreq : f.required with
      | true => simp [hl, hreq, hrest, missingRequired]
      | false =>
        cases hld : f.load_default <;> simp [hl, hreq, hrest, missingRequired]
    | some v =>
      have hhd2 : (processField f v).isOk = true := by
        rw [hl] at hhd
        exact hhd
      cases hpf : processField f v with
      | error msgs =>
        rw [hpf] at hhd2
        exact Bool.noConfusion hhd2
      | ok w =>
        simp [hl, hpf, hrest, missingRequired]

theorem unknownErrors_nil {flds : List (String × LField)} {data : List (String × PyVal)}
    (h : allKnown flds data = true) : unknownErrors flds data = [] := by
  rw [unknownErrors]
  rw [List.filter_eq_nil_iff.mpr, List.map_nil]
  intro kv hkv
  rw [allKnown, List.all_eq_true] at h
  have := h kv hkv
  simp only [Option.isNone, Bool.not_eq_true]
  cases ho : lookupField flds kv.1 with
  | none => rw [ho] at this; simp [Option.isSome] at this
  | some f => rfl

/-- C1: for a record that is missing K ≥ 1 required fields and is otherwise
valid (every present value processes cleanly and every key names a declared
field), the modelled `Schema.load` fails with a single error tree holding
exactly one leaf per missing required field — the leaf under that field's
key carrying the `default_error_messages["required"]` message — so no
field's error suppresses another's. -/
theorem C1_load_reports_all_missing_required (flds : List (String × LField))
    (data : List (String × PyVal))
    (hvalid : presentOk flds data = true) (hknown : allKnown flds data = true)
    (hmiss : missingRequired flds data ≠ []) :
    load_spec flds data =
      Except.error ((missingRequired flds data).map (fun n => (n, [requiredMessage]))) := by
  rw [load_spec, loadFields_errors data flds hvalid, unknownErrors_nil hknown,
    List.append_nil]
  cases hm : missingRequired flds data with
  | nil => exact absurd hm hmiss
  | cons n rest => rfl

/-- C1 (witness): two required fields, an empty input record: the error tree
has exactly the two required-field leaves. -/
theorem C1_load_reports_all_missing_required_witness :
    load_spec
        [("name", ⟨true, false, PyVal.missingv, fun v => Except.ok v⟩),
         ("age", ⟨true, false, PyVal.missingv, fun v => Except.ok v⟩)] [] =
      Except.error
        [("name", ["Missing data for required field."]),
         ("age", ["Missing data for required field."])] :=
  C1_load_reports_all_missing_required
    [("name", ⟨true, false, PyVal.missingv, fun v => Except.ok v⟩),
     ("age", ⟨true, false, PyVal.missingv, fun v => Except.ok v⟩)] [] rfl rfl
    (by simp [missingRequired, lookupData])

end Marshmallow
